import Mathlib

/-
Formal model (shallow embedding) of the core index data structures of the
llama_index repository, together with proofs about their behaviour.

The embedding follows the Python source:
  * gpt_index/data_structs/data_structs_v2.py  (IndexGraph, KeywordTable,
    IndexList, IndexDict, KG)
  * gpt_index/indices/data_structs.py          (the v0 IndexGraph)
  * gpt_index/indices/postprocessor/node.py    (KeywordNodePostprocessor,
    SimilarityPostprocessor)

Python dictionaries are modelled as insertion-ordered association lists with
unique keys (dictGet / dictInsert / dictErase below); Python sets are modelled
as duplicate-free lists in insertion order (setInsert).  Python exceptions are
modelled either by an Except result or by returning the post-call state paired
with an optional error, mirroring the fact that a raising call may leave the
structure partially mutated.
-/

namespace LlamaIndex

/-- Error kinds raised by the modelled Python code. -/
inductive PyError where
  | valueError
  | keyError
  | typeError
deriving DecidableEq, Repr

/-- Lookup in a Python dict modelled as an association list: d[k] / d.get(k). -/
def dictGet [DecidableEq α] (k : α) : List (α × β) → Option β
  | [] => none
  | p :: d => if p.1 = k then some p.2 else dictGet k d

/-- Assignment d[k] = v on a Python dict: update the value in place if the key
exists (keeping insertion order), otherwise append the new binding. -/
def dictInsert [DecidableEq α] (k : α) (v : β) (d : List (α × β)) : List (α × β) :=
  if (dictGet k d).isSome then d.map (fun p => if p.1 = k then (k, v) else p)
  else d ++ [(k, v)]

/-- Deletion del d[k] on a Python dict (the key is simply removed). -/
def dictErase [DecidableEq α] (k : α) (d : List (α × β)) : List (α × β) :=
  d.filter (fun p => decide (p.1 ≠ k))

/-- Python set.add on a set modelled as a duplicate-free list. -/
def setInsert [DecidableEq α] (a : α) (l : List α) : List α :=
  if a ∈ l then l else l ++ [a]

/-- A node as the v2 index structs see it.  Of the Python Node class we keep
exactly the fields the index structs read: the id returned by get_doc_id, the
text returned by get_text, and the weak back-reference ref_doc_id. -/
structure Node where
  doc_id : String
  text : String
  ref_doc_id : Option String
deriving DecidableEq, Repr

/-- IndexList (data_structs_v2.py): a list of node doc ids. -/
structure IndexList where
  nodes : List String
deriving DecidableEq, Repr

/-- IndexList.add_node: self.nodes.append(node.get_doc_id()). -/
def IndexList.add_node (s : IndexList) (node : Node) : IndexList :=
  { s with nodes := s.nodes ++ [node.doc_id] }

/-- IndexDict (data_structs_v2.py): nodes_dict maps vector store ids to node
ids, doc_id_dict maps a source doc id to its list of vector store ids, and
embeddings_dict optionally stores in-process embeddings. -/
structure IndexDict where
  nodes_dict : List (String × String)
  doc_id_dict : List (String × List String)
  embeddings_dict : List (String × List Float)

/-- IndexDict.add_node: the vector id defaults to the node doc id when no
text_id is supplied; the binding vector_id -> node id is written into
nodes_dict; when the node has a ref_doc_id the vector id is appended to that
doc id's fan-out list (creating the entry if needed).  Returns the updated
struct together with the assigned vector id. -/
def IndexDict.add_node (s : IndexDict) (node : Node) (text_id : Option String) :
    IndexDict × String :=
  let vector_id := text_id.getD node.doc_id
  let s1 := { s with nodes_dict := dictInsert vector_id node.doc_id s.nodes_dict }
  match node.ref_doc_id with
  | none => (s1, vector_id)
  | some r =>
      let cur := (dictGet r s1.doc_id_dict).getD []
      ({ s1 with doc_id_dict := dictInsert r (cur ++ [vector_id]) s1.doc_id_dict },
       vector_id)

/-- The loop "for vector_id in vids: del self.nodes_dict[vector_id]".  A del
on a missing key raises KeyError, keeping the deletions already performed. -/
def delNodes : List String → List (String × String) →
    List (String × String) × Option PyError
  | [], nd => (nd, none)
  | v :: vs, nd =>
      if (dictGet v nd).isSome then delNodes vs (dictErase v nd)
      else (nd, some PyError.keyError)

/-- IndexDict.delete: raises ValueError when doc_id is not a key of
doc_id_dict; otherwise deletes every associated vector id from nodes_dict.
Note that the Python code never removes the doc_id_dict entry itself.  The
result is the post-call struct together with the raised error, if any. -/
def IndexDict.delete (s : IndexDict) (doc_id : String) :
    IndexDict × Option PyError :=
  match dictGet doc_id s.doc_id_dict with
  | none => (s, some PyError.valueError)
  | some vids =>
      let r := delNodes vids s.nodes_dict
      ({ s with nodes_dict := r.1 }, r.2)

/-- IndexGraph (data_structs_v2.py): the tree index over node ids. -/
structure IndexGraph where
  all_nodes : List (Nat × String)
  root_nodes : List (Nat × String)
  node_id_to_index : List (String × Nat)
  node_id_to_child_indices : List (String × List Nat)
deriving DecidableEq, Repr

/-- IndexGraph.size: len(self.all_nodes). -/
def IndexGraph.size (g : IndexGraph) : Nat :=
  g.all_nodes.length

def emptyIndexGraph : IndexGraph :=
  { all_nodes := [], root_nodes := [], node_id_to_index := [],
    node_id_to_child_indices := [] }

/-- The Python idiom "index or self.size" on an Optional[int]: None and the
falsy value 0 are both replaced by the current size. -/
def pyOrSize (index : Option Nat) (size : Nat) : Nat :=
  match index with
  | none => size
  | some i => if i = 0 then size else i

/-- The expression set(self.get_index(n) for n in children_nodes): look every
child up in node_id_to_index and collect the indices into a set; a missing
child raises KeyError (modelled as none). -/
def getChildIndexSet (m : List (String × Nat)) : List Node → Option (List Nat)
  | [] => some []
  | n :: ns =>
      match dictGet n.doc_id m with
      | none => none
      | some i =>
          match getChildIndexSet m ns with
          | none => none
          | some rest => some (setInsert i rest)

/-- IndexGraph.insert: compute the position via "index or self.size", write
all_nodes[index] and node_id_to_index[node_id], then compute the child index
set from the updated node_id_to_index (in the source, get_index is called
after node_id_to_index has been updated) and assign it.  A missing child id
raises KeyError after the first two writes already happened, so the result is
the post-call state paired with the raised error, if any. -/
def IndexGraph.insert (g : IndexGraph) (node : Node) (index : Option Nat)
    (children_nodes : List Node) : IndexGraph × Option PyError :=
  let idx := pyOrSize index g.size
  let node_id := node.doc_id
  let g1 := { g with
    all_nodes := dictInsert idx node_id g.all_nodes,
    node_id_to_index := dictInsert node_id idx g.node_id_to_index }
  match getChildIndexSet g1.node_id_to_index children_nodes with
  | none => (g1, some PyError.keyError)
  | some cis =>
      ({ g1 with node_id_to_child_indices :=
          dictInsert node_id cis g1.node_id_to_child_indices }, none)

/-- IndexGraph.insert_under_parent: compute the position via
"new_index or self.size"; with no parent the node becomes a root, otherwise
the new position is added to the parent's child index set (created empty on
first use); finally all_nodes and node_id_to_index are updated.  No error is
ever raised and no child entry is created for the inserted node itself. -/
def IndexGraph.insert_under_parent (g : IndexGraph) (node : Node)
    (parent_node : Option Node) (new_index : Option Nat) : IndexGraph :=
  let idx := pyOrSize new_index g.size
  match parent_node with
  | none =>
      { g with
        root_nodes := dictInsert idx node.doc_id g.root_nodes,
        all_nodes := dictInsert idx node.doc_id g.all_nodes,
        node_id_to_index := dictInsert node.doc_id idx g.node_id_to_index }
  | some p =>
      let cur := (dictGet p.doc_id g.node_id_to_child_indices).getD []
      { g with
        node_id_to_child_indices :=
          dictInsert p.doc_id (setInsert idx cur) g.node_id_to_child_indices,
        all_nodes := dictInsert idx node.doc_id g.all_nodes,
        node_id_to_index := dictInsert node.doc_id idx g.node_id_to_index }

/-- The dict comprehension returning the children of a node: for each index in
the child index set, look the node id up in all_nodes; a missing key in
node_id_to_child_indices or in all_nodes raises KeyError (modelled as none).
With no parent the root_nodes dict is returned. -/
def IndexGraph.get_children (g : IndexGraph) (parent_node : Option Node) :
    Option (List (Nat × String)) :=
  match parent_node with
  | none => some g.root_nodes
  | some p =>
      match dictGet p.doc_id g.node_id_to_child_indices with
      | none => none
      | some cis =>
          cis.foldr
            (fun i acc =>
              match acc, dictGet i g.all_nodes with
              | some l, some v => some ((i, v) :: l)
              | _, _ => none)
            (some [])

/-- IndexGraph.get_children_indices: with no parent, the root positions;
otherwise the parent's entry in node_id_to_child_indices, whose absence
raises KeyError (modelled as none). -/
def IndexGraph.get_children_indices (g : IndexGraph)
    (parent_node : Option Node) : Option (List Nat) :=
  match parent_node with
  | none => some (g.root_nodes.map Prod.fst)
  | some p => dictGet p.doc_id g.node_id_to_child_indices

/-- One mutation of an IndexGraph: an insert call or an insert_under_parent
call, with the arguments the caller supplies. -/
inductive GraphOp where
  | ins (node : Node) (index : Option Nat) (children : List Node)
  | insUnder (node : Node) (parent : Option Node) (newIndex : Option Nat)

/-- Apply one mutation; a raising insert keeps its partial writes. -/
def applyGraphOp (g : IndexGraph) : GraphOp → IndexGraph
  | GraphOp.ins n i c => (g.insert n i c).1
  | GraphOp.insUnder n p i => g.insert_under_parent n p i

/-- Run a sequence of mutations from the empty graph. -/
def execGraphOps (ops : List GraphOp) : IndexGraph :=
  ops.foldl applyGraphOp emptyIndexGraph

/-- Every value of node_id_to_index is a key of all_nodes. -/
def indexMapOk (g : IndexGraph) : Bool :=
  g.node_id_to_index.all (fun p => (dictGet p.2 g.all_nodes).isSome)

/-- Every index in any child index set is a key of all_nodes. -/
def childIndicesOk (g : IndexGraph) : Bool :=
  g.node_id_to_child_indices.all
    (fun p => p.2.all (fun i => (dictGet i g.all_nodes).isSome))

/-- One step of following child_indices between node ids: some child index of
the first node resolves in all_nodes to the second id. -/
def childStep (g : IndexGraph) (a b : String) : Bool :=
  ((dictGet a g.node_id_to_child_indices).getD []).any
    (fun i => dictGet i g.all_nodes == some b)

/-- Consecutive ids of the list are joined by child steps. -/
def chainOk (g : IndexGraph) : List String → Bool
  | [] => true
  | [_] => true
  | a :: b :: rest => childStep g a b && chainOk g (b :: rest)

/-- The list is a path that starts at a root id and follows child_indices. -/
def rootPath (g : IndexGraph) (l : List String) : Bool :=
  match l with
  | [] => false
  | a :: _ => g.root_nodes.any (fun p => p.2 == a) && chainOk g l

namespace V0

/-- The v0 Node of gpt_index/indices/data_structs.py: carries its own index
and child index set.  Only the fields insert_under_parent reads are kept. -/
structure Node where
  doc_id : String
  index : Nat
  child_indices : List Nat
deriving DecidableEq, Repr

/-- The v0 IndexGraph of gpt_index/indices/data_structs.py: the maps hold
the Node values themselves. -/
structure IndexGraph where
  all_nodes : List (Nat × Node)
  root_nodes : List (Nat × Node)
deriving DecidableEq, Repr

/-- The v0 IndexGraph.insert_under_parent: if node.index is already a key of
all_nodes, a ValueError is raised before anything is mutated.  Otherwise the
node is registered under root_nodes (no parent) or node.index is added to the
child set of the parent node.  In Python the parent is passed as an object
aliased with the entries of all_nodes and root_nodes, so mutating its child
set updates those entries; we identify the parent by its position and update
the stored node in both maps.  The result is the post-call struct paired with
the raised error, if any. -/
def IndexGraph.insert_under_parent (g : IndexGraph) (node : Node)
    (parent_index : Option Nat) : IndexGraph × Option PyError :=
  if (dictGet node.index g.all_nodes).isSome then
    (g, some PyError.valueError)
  else
    match parent_index with
    | none =>
        ({ g with
            root_nodes := dictInsert node.index node g.root_nodes,
            all_nodes := dictInsert node.index node g.all_nodes }, none)
    | some pidx =>
        let addChild := fun (n : Node) =>
          { n with child_indices := setInsert node.index n.child_indices }
        let upd := fun (d : List (Nat × Node)) =>
          d.map (fun p => if p.1 = pidx then (p.1, addChild p.2) else p)
        ({ g with
            root_nodes := upd g.root_nodes,
            all_nodes := dictInsert node.index node (upd g.all_nodes) }, none)

end V0

/-- KG (data_structs_v2.py): keyword table, relation map and an embedding
dict for triplet embeddings. -/
structure KG where
  table : List (String × List String)
  rel_map : List (String × List (String × String))
  embedding_dict : List (String × List Float)

/-- KG.get_node_ids: depth greater than 1 raises ValueError up front; an
unknown keyword returns the empty list; otherwise the keyword and, when
present in rel_map, its related objects are collected and each one's node id
set contributes its ids in order. -/
def KG.get_node_ids (kg : KG) (keyword : String) (depth : Nat) :
    Except PyError (List String) :=
  if depth > 1 then Except.error PyError.valueError
  else if (dictGet keyword kg.table).isSome then
    let keywords := keyword ::
      (match dictGet keyword kg.rel_map with
       | some pairs => pairs.map Prod.fst
       | none => [])
    Except.ok (keywords.foldr
      (fun k acc => (dictGet k kg.table).getD [] ++ acc) [])
  else Except.ok []

/-- KeywordNodePostprocessor (indices/postprocessor/node.py): keeps a node iff
every required keyword occurs among the regex \w+ tokens of its text and no
excluded keyword does. -/
structure KeywordNodePostprocessor where
  required_keywords : List String
  exclude_keywords : List String

/-- A character matched by the regex class \w (ASCII reading). -/
def isWordChar (c : Char) : Bool :=
  c.isAlphanum || c = '_'

/-- re.findall of \w+ over the characters: maximal runs of word characters,
with the run under construction carried reversed. -/
def wordRuns : List Char → List Char → List String
  | [], cur => if cur.isEmpty then [] else [String.mk cur.reverse]
  | c :: cs, cur =>
      if isWordChar c then wordRuns cs (c :: cur)
      else if cur.isEmpty then wordRuns cs []
      else String.mk cur.reverse :: wordRuns cs []

/-- The word tokens of a text, as used by the keyword postprocessor. -/
def wordTokens (s : String) : List String :=
  wordRuns s.toList []

/-- KeywordNodePostprocessor.postprocess_nodes: a node is appended to the
result iff no required keyword is missing from its word tokens and no
excluded keyword is present among them. -/
def KeywordNodePostprocessor.postprocess_nodes
    (p : KeywordNodePostprocessor) (nodes : List Node) : List Node :=
  nodes.filter (fun node =>
    let words := wordTokens node.text
    p.required_keywords.all (fun w => w ∈ words) &&
      p.exclude_keywords.all (fun w => w ∉ words))

/-- SimilarityPostprocessor (indices/postprocessor/node.py): the similarity
cutoff, optional as in the source (Field(default=None)). -/
structure SimilarityPostprocessor where
  similarity_cutoff : Option Float

/-- The similarity tracker side channel: find returns the recorded similarity
of a node, if any. -/
def SimilarityTracker : Type :=
  Node → Option Float

/-- SimilarityPostprocessor.postprocess_nodes: per node, the tracker is read
from extra_info and its absence raises ValueError; when a cutoff is
configured the tracked similarity is compared against it — a node with no
tracked similarity makes the comparison "None < cutoff" raise TypeError in
Python — and nodes below the cutoff are dropped. -/
def SimilarityPostprocessor.postprocess_nodes (p : SimilarityPostprocessor)
    (nodes : List Node) (tracker : Option SimilarityTracker) :
    Except PyError (List Node) :=
  match nodes with
  | [] => Except.ok []
  | node :: rest =>
      match tracker with
      | none => Except.error PyError.valueError
      | some find =>
          let keep : Except PyError Bool :=
            match p.similarity_cutoff with
            | none => Except.ok true
            | some cutoff =>
                match find node with
                | none => Except.error PyError.typeError
                | some sim => Except.ok (decide ¬ sim < cutoff)
          match keep with
          | Except.error e => Except.error e
          | Except.ok b =>
              match SimilarityPostprocessor.postprocess_nodes p rest tracker with
              | Except.error e => Except.error e
              | Except.ok tail => Except.ok (if b then node :: tail else tail)

/-- Modelled from the spec: the adjacency-expansion postprocessor
(PrevNextNodePostProcessor), whose implementation is not among the source
files here — only its test is.  Spec, section 8: given sentence nodes linked
PREVIOUS/NEXT, requesting num_nodes around a retrieved node returns that node
together with its neighbours within num_nodes positions, in position order,
clamped at the ends of the chain.  The docstore chain is given as the list of
node ids in PREVIOUS/NEXT order. -/
def prevNextPostprocess (chain : List String) (num_nodes : Nat)
    (input : List String) : List String :=
  chain.filter (fun id =>
    input.any (fun inp =>
      match chain.findIdx? (fun x => x = id), chain.findIdx? (fun x => x = inp) with
      | some i, some j => (i - j) + (j - i) ≤ num_nodes
      | _, _ => false))

theorem dictGet_map_update [DecidableEq α] (k x : α) (v : β) (d : List (α × β)) :
    dictGet x (d.map (fun p => if p.1 = k then (k, v) else p)) =
      if x = k then (if (dictGet k d).isSome then some v else none)
      else dictGet x d := by
  induction d with
  | nil => simp [dictGet]
  | cons p d ih =>
    by_cases hpk : p.1 = k
    · by_cases hxk : x = k
      · subst hxk
        simp [dictGet, hpk]
      · have hkx : ¬ k = x := fun h => hxk h.symm
        simp [dictGet, hpk, hxk, hkx, ih]
    · by_cases hxp : p.1 = x
      · have hxk : ¬ x = k := fun h => hpk (hxp.trans h)
        simp [dictGet, hpk, hxp, hxk]
      · simp [dictGet, hpk, hxp, ih]

theorem dictGet_append_single [DecidableEq α] (k x : α) (v : β) (d : List (α × β)) :
    dictGet x (d ++ [(k, v)]) =
      match dictGet x d with
      | some w => some w
      | none => if k = x then some v else none := by
  induction d with
  | nil => simp [dictGet]
  | cons p d ih =>
    by_cases hxp : p.1 = x
    · simp [dictGet, hxp]
    · simp [dictGet, hxp, ih]

/-- The characteristic equation of dictInsert. -/
theorem dictGet_dictInsert [DecidableEq α] (k x : α) (v : β) (d : List (α × β)) :
    dictGet x (dictInsert k v d) = if x = k then some v else dictGet x d := by
  unfold dictInsert
  by_cases h : (dictGet k d).isSome
  · rw [if_pos h, dictGet_map_update]
    simp [h]
  · rw [if_neg h, dictGet_append_single]
    have hk : dictGet k d = none := by
      cases hh : dictGet k d with
      | none => rfl
      | some w => exact absurd (by simp [hh]) h
    by_cases hxk : x = k
    · subst hxk
      simp [hk]
    · have hkx : ¬ k = x := fun hh => hxk hh.symm
      cases hx : dictGet x d with
      | none => simp [hxk, hkx]
      | some w => simp [hxk]

theorem dictErase_cons [DecidableEq α] (k : α) (p : α × β) (d : List (α × β)) :
    dictErase k (p :: d) =
      if p.1 = k then dictErase k d else p :: dictErase k d := by
  by_cases h : p.1 = k <;> simp [dictErase, h]

theorem dictGet_dictErase [DecidableEq α] (k x : α) (d : List (α × β)) :
    dictGet x (dictErase k d) = if x = k then none else dictGet x d := by
  induction d with
  | nil => simp [dictGet, dictErase]
  | cons p d ih =>
    rw [dictErase_cons]
    by_cases hpk : p.1 = k
    · rw [if_pos hpk, ih]
      by_cases hxk : x = k
      · simp [hxk]
      · have hpx : ¬ p.1 = x := fun hh => hxk (hh.symm.trans hpk)
        simp [dictGet, hxk, hpx]
    · rw [if_neg hpk]
      by_cases hxp : p.1 = x
      · have hxk : ¬ x = k := fun hh => hpk (hxp.trans hh)
        simp [dictGet, hxp, hxk]
      · simp [dictGet, hxp, ih]

theorem dictGet_none_not_key [DecidableEq α] (k : α) (d : List (α × β))
    (h : dictGet k d = none) : ∀ p ∈ d, ¬ p.1 = k := by
  induction d with
  | nil =>
    intro p hp
    cases hp
  | cons q d ih =>
    intro p hp
    by_cases hqk : q.1 = k
    · simp [dictGet, hqk] at h
    · rcases List.mem_cons.mp hp with hq | hp2
      · subst hq
        exact hqk
      · exact ih (by simpa [dictGet, hqk] using h) p hp2

theorem dictInsert_key_entry [DecidableEq α] (k : α) (v : β) (d : List (α × β))
    (p : α × β) (hp : p ∈ dictInsert k v d) (hpk : p.1 = k) : p = (k, v) := by
  unfold dictInsert at hp
  by_cases h : (dictGet k d).isSome
  · rw [if_pos h] at hp
    rcases List.mem_map.mp hp with ⟨q, hq, hqe⟩
    by_cases hqk : q.1 = k
    · rw [← hqe]
      simp [hqk]
    · exfalso
      rw [← hqe] at hpk
      simp [hqk] at hpk
  · rw [if_neg h] at hp
    rcases List.mem_append.mp hp with h1 | h1
    · have hnone : dictGet k d = none := by
        cases hh : dictGet k d with
        | none => rfl
        | some w => exact absurd (by simp [hh]) h
      exact absurd hpk (dictGet_none_not_key k d hnone p h1)
    · simpa using h1

/-- Re-assigning the same binding is a no-op on the association list itself. -/
theorem dictInsert_idem [DecidableEq α] (k : α) (v : β) (d : List (α × β)) :
    dictInsert k v (dictInsert k v d) = dictInsert k v d := by
  have hsome : (dictGet k (dictInsert k v d)).isSome := by
    simp [dictGet_dictInsert]
  have hkey : ∀ p ∈ dictInsert k v d, p.1 = k → p = (k, v) :=
    fun p hp hpk => dictInsert_key_entry k v d p hp hpk
  generalize hgen : dictInsert k v d = m at hsome hkey ⊢
  unfold dictInsert
  rw [if_pos hsome]
  have hcong : m.map (fun p => if p.1 = k then (k, v) else p) = m.map id := by
    apply List.map_congr_left
    intro p hp
    by_cases hpk : p.1 = k
    · rw [if_pos hpk]
      exact (hkey p hp hpk).symm
    · rw [if_neg hpk]
      rfl
  rw [hcong, List.map_id]

theorem mem_dictInsert [DecidableEq α] (k : α) (v : β) (d : List (α × β))
    (p : α × β) (hp : p ∈ dictInsert k v d) : p = (k, v) ∨ p ∈ d := by
  unfold dictInsert at hp
  by_cases h : (dictGet k d).isSome
  · rw [if_pos h] at hp
    rcases List.mem_map.mp hp with ⟨q, hq, hqe⟩
    by_cases hqk : q.1 = k
    · left
      rw [← hqe]
      simp [hqk]
    · right
      rw [← hqe]
      simpa [hqk] using hq
  · rw [if_neg h] at hp
    rcases List.mem_append.mp hp with h1 | h1
    · right
      exact h1
    · left
      simpa using h1

theorem mem_setInsert [DecidableEq α] (a x : α) (l : List α)
    (hx : x ∈ setInsert a l) : x = a ∨ x ∈ l := by
  unfold setInsert at hx
  by_cases h : a ∈ l
  · right
    simpa [h] using hx
  · rw [if_neg h] at hx
    rcases List.mem_append.mp hx with h1 | h1
    · right
      exact h1
    · left
      simpa using h1

theorem dictGet_mem [DecidableEq α] (k : α) (v : β) (d : List (α × β))
    (h : dictGet k d = some v) : (k, v) ∈ d := by
  induction d with
  | nil => cases h
  | cons p d ih =>
    obtain ⟨a, b⟩ := p
    by_cases hak : a = k
    · simp [dictGet, hak] at h
      subst hak
      subst h
      exact List.mem_cons_self _ _
    · simp [dictGet, hak] at h
      exact List.mem_cons_of_mem _ (ih h)

theorem delNodes_spec (vids : List String) (nd : List (String × String))
    (hnodup : vids.Nodup) (hall : ∀ v ∈ vids, (dictGet v nd).isSome) :
    (delNodes vids nd).2 = none ∧
      ∀ x, dictGet x (delNodes vids nd).1 =
        if x ∈ vids then none else dictGet x nd := by
  induction vids generalizing nd with
  | nil => simp [delNodes]
  | cons v vs ih =>
    have hv : (dictGet v nd).isSome := hall v (List.mem_cons_self _ _)
    have hnodup2 : vs.Nodup := (List.nodup_cons.mp hnodup).2
    have hvnotin : v ∉ vs := (List.nodup_cons.mp hnodup).1
    have hall2 : ∀ w ∈ vs, (dictGet w (dictErase v nd)).isSome := by
      intro w hw
      have hwv : ¬ w = v := fun hh => hvnotin (hh ▸ hw)
      rw [dictGet_dictErase]
      rw [if_neg hwv]
      exact hall w (List.mem_cons_of_mem _ hw)
    obtain ⟨he, hg⟩ := ih (dictErase v nd) hnodup2 hall2
    constructor
    · simpa [delNodes, hv] using he
    · intro x
      have hx := hg x
      by_cases hxv : x = v
      · subst hxv
        simp only [delNodes, hv, if_pos]
        rw [hx]
        by_cases hxvs : x ∈ vs
        · simp [hxvs]
        · simp [hxvs, dictGet_dictErase]
      · simp only [delNodes, hv, if_pos]
        rw [hx]
        by_cases hxvs : x ∈ vs
        · simp [hxvs, hxv]
        · simp [hxvs, hxv, dictGet_dictErase]

theorem delNodes_error_ne_valueError (vids : List String)
    (nd : List (String × String)) :
    (delNodes vids nd).2 ≠ some PyError.valueError := by
  induction vids generalizing nd with
  | nil => simp [delNodes]
  | cons v vs ih =>
    by_cases h : (dictGet v nd).isSome
    · simpa [delNodes, h] using ih (dictErase v nd)
    · simp [delNodes, h]

/-- Claim C1 (counterexample): after adding 3 nodes that share ref_doc_id "D"
and deleting "D", nodes_dict is emptied of the 3 entries, but "D" is still a
key of doc_id_dict, contradicting the claim that the doc_id entry is removed. -/
theorem C1_counterexample :
    (let d := (((IndexDict.add_node ⟨[], [], []⟩ ⟨"n1", "", some "D"⟩ none).1.add_node
        ⟨"n2", "", some "D"⟩ none).1.add_node ⟨"n3", "", some "D"⟩ none).1
     (d.delete "D").1.nodes_dict = [] ∧
       dictGet "D" (d.delete "D").1.doc_id_dict = some ["n1", "n2", "n3"]) := by
  decide

/-- Claim C1 (amended): for every IndexDict and every doc_id that is a key of
doc_id_dict (with distinct vector ids that all resolve in nodes_dict), delete
removes every associated vector id from nodes_dict, leaves every other
nodes_dict entry alone, raises nothing — but leaves doc_id_dict, including
the doc_id entry, completely unchanged. -/
theorem C1_delete_behavior (s : IndexDict) (doc_id : String)
    (vids : List String) (hget : dictGet doc_id s.doc_id_dict = some vids)
    (hnodup : vids.Nodup)
    (hall : ∀ v ∈ vids, (dictGet v s.nodes_dict).isSome) :
    (s.delete doc_id).2 = none ∧
      (∀ x, dictGet x (s.delete doc_id).1.nodes_dict =
        if x ∈ vids then none else dictGet x s.nodes_dict) ∧
      (s.delete doc_id).1.doc_id_dict = s.doc_id_dict := by
  obtain ⟨he, hg⟩ := delNodes_spec vids s.nodes_dict hnodup hall
  unfold IndexDict.delete
  rw [hget]
  exact ⟨he, hg, rfl⟩

/-- Claim C1 (witness): the amended statement at the 3-node scenario of the
claim. -/
theorem C1_witness :
    (let d := (((IndexDict.add_node ⟨[], [], []⟩ ⟨"n1", "", some "D"⟩ none).1.add_node
        ⟨"n2", "", some "D"⟩ none).1.add_node ⟨"n3", "", some "D"⟩ none).1
     (d.delete "D").2 = none ∧
       (∀ x, dictGet x (d.delete "D").1.nodes_dict =
         if x ∈ ["n1", "n2", "n3"] then none else dictGet x d.nodes_dict) ∧
       (d.delete "D").1.doc_id_dict = d.doc_id_dict) :=
  C1_delete_behavior _ "D" ["n1", "n2", "n3"] (by decide) (by decide) (by decide)

/-- Claim C2 (counterexample): after one add and one successful delete of
ref_doc_id "D", the doc id is still a key of doc_id_dict, and the second
delete raises KeyError (stale vector id in nodes_dict), not the not-found
ValueError the claim predicts. -/
theorem C2_counterexample :
    (let d := (IndexDict.add_node ⟨[], [], []⟩ ⟨"n1", "", some "D"⟩ none).1
     let d1 := (d.delete "D").1
     (d.delete "D").2 = none ∧ (dictGet "D" d1.doc_id_dict).isSome = true ∧
       (d1.delete "D").2 = some PyError.keyError) := by
  decide

/-- Claim C2 (amended): delete raises the not-found ValueError exactly when
the doc_id is absent from doc_id_dict; but because a successful delete leaves
the doc_id_dict entry behind, a second delete of the same doc_id does not hit
that branch: it raises KeyError while deleting the first already-removed
vector id from nodes_dict. -/
theorem C2_delete_error_iff :
    (∀ (s : IndexDict) (doc_id : String),
      (s.delete doc_id).2 = some PyError.valueError ↔
        dictGet doc_id s.doc_id_dict = none) ∧
    (∀ (s : IndexDict) (doc_id : String) (vids : List String),
      dictGet doc_id s.doc_id_dict = some vids → vids ≠ [] → vids.Nodup →
      (∀ v ∈ vids, (dictGet v s.nodes_dict).isSome) →
      (((s.delete doc_id).1).delete doc_id).2 = some PyError.keyError) := by
  constructor
  · intro s doc_id
    unfold IndexDict.delete
    cases hget : dictGet doc_id s.doc_id_dict with
    | none => simp
    | some vids =>
      simp only
      constructor
      · intro h
        exact absurd h (delNodes_error_ne_valueError vids s.nodes_dict)
      · intro h
        cases h
  · intro s doc_id vids hget hne hnodup hall
    obtain ⟨he, hg⟩ := delNodes_spec vids s.nodes_dict hnodup hall
    have hdoc : (s.delete doc_id).1.doc_id_dict = s.doc_id_dict := by
      unfold IndexDict.delete
      rw [hget]
    have hnd : ∀ x, dictGet x (s.delete doc_id).1.nodes_dict =
        if x ∈ vids then none else dictGet x s.nodes_dict := by
      intro x
      unfold IndexDict.delete
      rw [hget]
      exact hg x
    cases vids with
    | nil => exact absurd rfl hne
    | cons v vs =>
      have hv : dictGet v (s.delete doc_id).1.nodes_dict = none := by
        rw [hnd v, if_pos (List.mem_cons_self _ _)]
      have hget1 : dictGet doc_id (s.delete doc_id).1.doc_id_dict =
          some (v :: vs) := by
        rw [hdoc, hget]
      generalize hs1 : (s.delete doc_id).1 = s1 at hget1 hv
      unfold IndexDict.delete
      rw [hget1]
      simp [delNodes, hv]

/-- Claim C2 (witness): the amended statement at the one-node scenario. -/
theorem C2_witness :
    (((IndexDict.add_node ⟨[], [], []⟩ ⟨"n1", "", some "D"⟩ none).1.delete
        "D").1.delete "D").2 = some PyError.keyError :=
  C2_delete_error_iff.2 _ "D" ["n1"] (by decide) (by decide) (by decide)
    (by decide)

/-- Claim C5 (counterexample): adding the same node twice to an IndexList
does not leave the struct unchanged: the id is appended a second time. -/
theorem C5_counterexample :
    (IndexList.add_node (IndexList.add_node ⟨[]⟩ ⟨"a", "", none⟩)
        ⟨"a", "", none⟩).nodes = ["a", "a"] ∧
      (IndexList.add_node ⟨[]⟩ ⟨"a", "", none⟩).nodes = ["a"] := by
  decide

/-- Claim C5 (amended): a repeated add_node on the list and dict variants
raises no error but is not idempotent: IndexList appends the doc id again;
IndexDict leaves nodes_dict unchanged (the same key is re-bound to the same
value) but appends the vector id a second time to the doc_id fan-out list
whenever the node carries a ref_doc_id. -/
theorem C5_repeat_add_node :
    (∀ (l : IndexList) (n : Node),
      ((l.add_node n).add_node n).nodes = l.nodes ++ [n.doc_id, n.doc_id]) ∧
    (∀ (d : IndexDict) (n : Node) (tid : Option String),
      (((d.add_node n tid).1).add_node n tid).1.nodes_dict =
        (d.add_node n tid).1.nodes_dict) ∧
    (∀ (d : IndexDict) (n : Node) (tid : Option String) (r : String),
      n.ref_doc_id = some r →
      dictGet r (((d.add_node n tid).1).add_node n tid).1.doc_id_dict =
        some ((dictGet r (d.add_node n tid).1.doc_id_dict).getD [] ++
          [tid.getD n.doc_id])) := by
  refine ⟨?_, ?_, ?_⟩
  · intro l n
    simp [IndexList.add_node]
  · intro d n tid
    unfold IndexDict.add_node
    cases href : n.ref_doc_id with
    | none => simp [dictInsert_idem]
    | some r => simp [dictInsert_idem]
  · intro d n tid r href
    unfold IndexDict.add_node
    rw [href]
    simp [dictGet_dictInsert]

/-- Claim C5 (witness): the amended statement at concrete inputs, the third
part with a node whose ref_doc_id is "D". -/
theorem C5_witness :
    ((IndexList.add_node (IndexList.add_node ⟨["z"]⟩ ⟨"a", "", none⟩)
        ⟨"a", "", none⟩).nodes = ["z"] ++ ["a", "a"]) ∧
      (dictGet "D"
        (((IndexDict.add_node ⟨[], [], []⟩ ⟨"n1", "", some "D"⟩ none).1.add_node
          ⟨"n1", "", some "D"⟩ none).1).doc_id_dict =
        some ((dictGet "D"
          (IndexDict.add_node ⟨[], [], []⟩ ⟨"n1", "", some "D"⟩ none).1.doc_id_dict).getD []
            ++ ["n1"])) :=
  ⟨C5_repeat_add_node.1 ⟨["z"]⟩ ⟨"a", "", none⟩,
   C5_repeat_add_node.2.2 ⟨[], [], []⟩ ⟨"n1", "", some "D"⟩ none "D" rfl⟩

theorem insert_node_id_to_index (g : IndexGraph) (n : Node)
    (i : Option Nat) (c : List Node) :
    ((g.insert n i c).1).node_id_to_index =
      dictInsert n.doc_id (pyOrSize i g.size) g.node_id_to_index := by
  unfold IndexGraph.insert
  cases h : getChildIndexSet
      (dictInsert n.doc_id (pyOrSize i g.size) g.node_id_to_index) c <;>
    simp [h]

theorem insert_under_parent_node_id_to_index (g : IndexGraph) (n : Node)
    (p : Option Node) (i : Option Nat) :
    (g.insert_under_parent n p i).node_id_to_index =
      dictInsert n.doc_id (pyOrSize i g.size) g.node_id_to_index := by
  unfold IndexGraph.insert_under_parent
  cases p <;> simp

/-- Claim C6 (counterexample): with one node occupying position 0, inserting
a second node with caller-supplied position 0 does not register it at 0 (the
Python expression "index or self.size" treats 0 as falsy): the new node lands
at position 1 and position 0 keeps its old occupant. -/
theorem C6_counterexample :
    (let g1 := (emptyIndexGraph.insert ⟨"A", "", none⟩ none []).1
     dictGet 0 g1.all_nodes = some "A" ∧ g1.size = 1 ∧
       dictGet "B" ((g1.insert ⟨"B", "", none⟩ (some 0) []).1).node_id_to_index =
         some 1 ∧
       dictGet 0 ((g1.insert ⟨"B", "", none⟩ (some 0) []).1).all_nodes =
         some "A") := by
  decide

/-- Claim C6 (amended): both insert and insert_under_parent register the new
node at the caller-supplied position whenever that position is nonzero; a
missing position and the position 0 (falsy in Python) are both replaced by
the current size of all_nodes. -/
theorem C6_position_assignment (g : IndexGraph) (n : Node) (c : List Node)
    (p : Option Node) :
    (∀ k : Nat, k ≠ 0 →
      dictGet n.doc_id ((g.insert n (some k) c).1).node_id_to_index = some k ∧
      dictGet n.doc_id (g.insert_under_parent n p (some k)).node_id_to_index =
        some k) ∧
    (∀ i : Option Nat, i = none ∨ i = some 0 →
      dictGet n.doc_id ((g.insert n i c).1).node_id_to_index = some g.size ∧
      dictGet n.doc_id (g.insert_under_parent n p i).node_id_to_index =
        some g.size) := by
  constructor
  · intro k hk
    rw [insert_node_id_to_index, insert_under_parent_node_id_to_index]
    simp [dictGet_dictInsert, pyOrSize, hk]
  · intro i hi
    rw [insert_node_id_to_index, insert_under_parent_node_id_to_index]
    rcases hi with rfl | rfl <;> simp [dictGet_dictInsert, pyOrSize]

/-- Claim C6 (witness): the amended statement on the empty graph, with the
nonzero position 5 and with no caller-supplied position. -/
theorem C6_witness :
    (dictGet "B"
        ((emptyIndexGraph.insert ⟨"B", "", none⟩ (some 5) []).1).node_id_to_index =
      some 5) ∧
    (dictGet "B"
        ((emptyIndexGraph.insert ⟨"B", "", none⟩ none []).1).node_id_to_index =
      some emptyIndexGraph.size) :=
  ⟨((C6_position_assignment emptyIndexGraph ⟨"B", "", none⟩ [] none).1 5
      (by decide)).1,
   ((C6_position_assignment emptyIndexGraph ⟨"B", "", none⟩ [] none).2 none
      (Or.inl rfl)).1⟩

/-- Claim C8 (counterexample): a call on the empty candidate list with no
similarity tracker in the context raises nothing and returns the input list
unchanged, contradicting the claim that every such call raises ValueError. -/
theorem C8_counterexample :
    SimilarityPostprocessor.postprocess_nodes ⟨some 0.5⟩ [] none =
      Except.ok [] := rfl

/-- Claim C8 (amended): when the similarity tracker is absent from the
context, postprocess_nodes raises ValueError as soon as the candidate list is
nonempty (the check sits inside the per-node loop); on the empty list it
returns the empty list without raising. -/
theorem C8_missing_tracker (p : SimilarityPostprocessor) (n : Node)
    (ns : List Node) :
    p.postprocess_nodes (n :: ns) none = Except.error PyError.valueError ∧
      p.postprocess_nodes [] none = Except.ok [] :=
  ⟨rfl, rfl⟩

/-- Claim C9 (confirmed): for every knowledge-graph table and keyword, a
lookup with depth strictly greater than 1 raises ValueError up front,
whatever the table contains — the result never silently truncates to the
depth-1 answer. -/
theorem C9_depth_check (kg : KG) (keyword : String) (depth : Nat)
    (h : depth > 1) :
    kg.get_node_ids keyword depth = Except.error PyError.valueError := by
  unfold KG.get_node_ids
  rw [if_pos h]

/-- Claim C9 (witness): the depth-2 lookup on a one-keyword table. -/
theorem C9_witness :
    KG.get_node_ids ⟨[("b", ["n1"])], [], []⟩ "b" 2 =
      Except.error PyError.valueError :=
  C9_depth_check ⟨[("b", ["n1"])], [], []⟩ "b" 2 (by decide)

/-- Claim C10 (confirmed): inserting a node via insert_under_parent (as a
root or under a distinct parent) creates no node_id_to_child_indices entry
for the inserted node; if the node had no entry before, both get_children and
get_children_indices with it as the parent subsequently raise KeyError
(modelled as none) instead of returning an empty child set. -/
theorem C10_no_child_entry (g : IndexGraph) (n : Node) (p : Option Node)
    (idx : Option Nat)
    (hfresh : dictGet n.doc_id g.node_id_to_child_indices = none)
    (hparent : ∀ q, p = some q → ¬ q.doc_id = n.doc_id) :
    dictGet n.doc_id
        (g.insert_under_parent n p idx).node_id_to_child_indices = none ∧
      (g.insert_under_parent n p idx).get_children (some n) = none ∧
      (g.insert_under_parent n p idx).get_children_indices (some n) = none := by
  have hmap : dictGet n.doc_id
      (g.insert_under_parent n p idx).node_id_to_child_indices = none := by
    cases p with
    | none => simpa [IndexGraph.insert_under_parent] using hfresh
    | some q =>
      have hq : ¬ n.doc_id = q.doc_id :=
        fun h => hparent q rfl h.symm
      simp [IndexGraph.insert_under_parent, dictGet_dictInsert, hq, hfresh]
  refine ⟨hmap, ?_, ?_⟩
  · simp [IndexGraph.get_children, hmap]
  · simp [IndexGraph.get_children_indices, hmap]

/-- Claim C10 (witness): a leaf inserted under a distinct parent in the empty
graph. -/
theorem C10_witness :
    dictGet "L"
        (emptyIndexGraph.insert_under_parent ⟨"L", "", none⟩
          (some ⟨"P", "", none⟩) none).node_id_to_child_indices = none ∧
      (emptyIndexGraph.insert_under_parent ⟨"L", "", none⟩
          (some ⟨"P", "", none⟩) none).get_children (some ⟨"L", "", none⟩) =
        none ∧
      (emptyIndexGraph.insert_under_parent ⟨"L", "", none⟩
          (some ⟨"P", "", none⟩) none).get_children_indices
          (some ⟨"L", "", none⟩) = none :=
  C10_no_child_entry emptyIndexGraph ⟨"L", "", none⟩ (some ⟨"P", "", none⟩)
    none (by decide) (by intro q hq; cases hq; decide)

/-- Claim C3 (counterexample): in the v2 IndexGraph, position 1 is occupied
by node "B", yet insert_under_parent at position 1 raises nothing and simply
overwrites the slot with the new node, contradicting the claimed fatal
ValueError and unchanged struct. -/
theorem C3_counterexample :
    (let g := (((emptyIndexGraph.insert ⟨"A", "", none⟩ none []).1).insert
        ⟨"B", "", none⟩ none []).1
     dictGet 1 g.all_nodes = some "B" ∧
       dictGet 1 (g.insert_under_parent ⟨"C", "", none⟩ none
           (some 1)).all_nodes = some "C") := by
  decide

/-- Claim C3 (amended): the duplicate-position check exists only in the v0
IndexGraph of gpt_index/indices/data_structs.py, where inserting a node whose
index is already a key of all_nodes raises ValueError with the struct left
unchanged; the v2 IndexGraph of data_structs_v2.py performs no such check —
its insert_under_parent never raises and writes the node id at the requested
nonzero position even when a node already occupies it. -/
theorem C3_duplicate_position :
    (∀ (g : V0.IndexGraph) (n : V0.Node) (parentIdx : Option Nat),
      (dictGet n.index g.all_nodes).isSome = true →
      g.insert_under_parent n parentIdx = (g, some PyError.valueError)) ∧
    (∀ (g : IndexGraph) (n : Node) (p : Option Node) (k : Nat), k ≠ 0 →
      dictGet k (g.insert_under_parent n p (some k)).all_nodes =
        some n.doc_id) := by
  constructor
  · intro g n parentIdx h
    unfold V0.IndexGraph.insert_under_parent
    rw [if_pos h]
  · intro g n p k hk
    cases p <;>
      simp [IndexGraph.insert_under_parent, pyOrSize, hk, dictGet_dictInsert]

/-- Claim C3 (witness): the v0 check fires on a one-node graph when the new
node reuses index 0, and the v2 variant overwrites position 1 of the empty
graph without complaint. -/
theorem C3_witness :
    V0.IndexGraph.insert_under_parent
        ⟨[(0, ⟨"A", 0, []⟩)], [(0, ⟨"A", 0, []⟩)]⟩ ⟨"B", 0, []⟩ none =
      (⟨[(0, ⟨"A", 0, []⟩)], [(0, ⟨"A", 0, []⟩)]⟩, some PyError.valueError) ∧
      dictGet 1 (emptyIndexGraph.insert_under_parent ⟨"C", "", none⟩ none
          (some 1)).all_nodes = some "C" :=
  ⟨C3_duplicate_position.1 ⟨[(0, ⟨"A", 0, []⟩)], [(0, ⟨"A", 0, []⟩)]⟩
      ⟨"B", 0, []⟩ none (by decide),
   C3_duplicate_position.2 emptyIndexGraph ⟨"C", "", none⟩ none 1 (by decide)⟩

theorem simPost_ok_sublist (p : SimilarityPostprocessor)
    (t : Option SimilarityTracker) :
    ∀ (nodes out : List Node),
      p.postprocess_nodes nodes t = Except.ok out → List.Sublist out nodes := by
  intro nodes
  induction nodes with
  | nil =>
    intro out h
    unfold SimilarityPostprocessor.postprocess_nodes at h
    injection h with h2
    subst h2
    exact List.Sublist.refl []
  | cons n rest ih =>
    intro out h
    unfold SimilarityPostprocessor.postprocess_nodes at h
    cases t with
    | none => exact Except.noConfusion h
    | some find =>
      simp only at h
      cases hc : p.similarity_cutoff with
      | none =>
        rw [hc] at h
        simp only at h
        cases hr : SimilarityPostprocessor.postprocess_nodes p rest
            (some find) with
        | error e =>
          rw [hr] at h
          exact Except.noConfusion h
        | ok tail =>
          rw [hr] at h
          simp only [if_pos] at h
          injection h with h2
          subst h2
          exact List.Sublist.cons₂ n (ih tail hr)
      | some cutoff =>
        rw [hc] at h
        simp only at h
        cases hf : find n with
        | none =>
          rw [hf] at h
          exact Except.noConfusion h
        | some sim =>
          rw [hf] at h
          simp only at h
          cases hr : SimilarityPostprocessor.postprocess_nodes p rest
              (some find) with
          | error e =>
            rw [hr] at h
            exact Except.noConfusion h
          | ok tail =>
            rw [hr] at h
            simp only at h
            injection h with h2
            subst h2
            by_cases hb : sim < cutoff
            · simp [hb]
              exact List.Sublist.cons n (ih tail hr)
            · simp [hb]
              exact ih tail hr

/-- Claim C7 (counterexample): the adjacency-expansion (prev/next) stage,
modelled from the spec, applied to the single retrieved node "3" of a 4-node
chain with num_nodes 1, returns nodes "2", "3", "4" — the node "2" was not in
its input, so this stage does invent nodes. -/
theorem C7_counterexample :
    prevNextPostprocess ["1", "2", "3", "4"] 1 ["3"] = ["2", "3", "4"] ∧
      "2" ∈ prevNextPostprocess ["1", "2", "3", "4"] 1 ["3"] ∧
      "2" ∉ (["3"] : List String) := by
  decide

/-- Claim C7 (amended): the keyword and similarity postprocessors only ever
shrink the candidate list — every successful result is a sublist of the
input — but the adjacency-expansion (prev/next) stage can return neighbour
nodes that were not in its input. -/
theorem C7_stage_containment :
    (∀ (p : KeywordNodePostprocessor) (nodes : List Node),
      List.Sublist (p.postprocess_nodes nodes) nodes) ∧
    (∀ (p : SimilarityPostprocessor) (t : Option SimilarityTracker)
        (nodes out : List Node),
      p.postprocess_nodes nodes t = Except.ok out →
        List.Sublist out nodes) ∧
    ("2" ∈ prevNextPostprocess ["1", "2", "3", "4"] 1 ["3"] ∧
      "2" ∉ (["3"] : List String)) := by
  refine ⟨?_, ?_, by decide⟩
  · intro p nodes
    exact List.filter_sublist nodes
  · intro p t nodes out h
    exact simPost_ok_sublist p t nodes out h

/-- Claim C7 (witness): the containment statements at concrete inputs — the
similarity hypothesis discharged on the empty candidate list. -/
theorem C7_witness :
    List.Sublist
        (KeywordNodePostprocessor.postprocess_nodes ⟨["x"], []⟩
          [⟨"a", "hello", none⟩]) [⟨"a", "hello", none⟩] ∧
      List.Sublist ([] : List Node) ([] : List Node) :=
  ⟨C7_stage_containment.1 ⟨["x"], []⟩ [⟨"a", "hello", none⟩],
   C7_stage_containment.2.1 ⟨none⟩ none [] [] rfl⟩

theorem dictGet_isSome_dictInsert [DecidableEq α] (k x : α) (v : β)
    (d : List (α × β)) (h : (dictGet x d).isSome = true) :
    (dictGet x (dictInsert k v d)).isSome = true := by
  rw [dictGet_dictInsert]
  by_cases hx : x = k <;> simp [hx, h]

theorem getChildIndexSet_sound (m : List (String × Nat)) :
    ∀ (ns : List Node) (cis : List Nat), getChildIndexSet m ns = some cis →
      ∀ i ∈ cis, ∃ nid, dictGet nid m = some i := by
  intro ns
  induction ns with
  | nil =>
    intro cis h i hi
    injection h with h2
    subst h2
    cases hi
  | cons n ns ih =>
    intro cis h i hi
    unfold getChildIndexSet at h
    cases hn : dictGet n.doc_id m with
    | none =>
      rw [hn] at h
      exact Option.noConfusion h
    | some j =>
      rw [hn] at h
      cases hrec : getChildIndexSet m ns with
      | none =>
        rw [hrec] at h
        exact Option.noConfusion h
      | some rest =>
        rw [hrec] at h
        injection h with h2
        subst h2
        rcases mem_setInsert j i rest hi with rfl | hmem
        · exact ⟨n.doc_id, hn⟩
        · exact ih rest hrec i hmem

theorem indexMapOk_iff (g : IndexGraph) :
    indexMapOk g = true ↔
      ∀ p ∈ g.node_id_to_index,
        (dictGet p.2 g.all_nodes).isSome = true := by
  simp [indexMapOk, List.all_eq_true]

theorem childIndicesOk_iff (g : IndexGraph) :
    childIndicesOk g = true ↔
      ∀ p ∈ g.node_id_to_child_indices, ∀ i ∈ p.2,
        (dictGet i g.all_nodes).isSome = true := by
  simp [childIndicesOk, List.all_eq_true]

theorem insert_all_nodes (g : IndexGraph) (n : Node) (i : Option Nat)
    (c : List Node) :
    ((g.insert n i c).1).all_nodes =
      dictInsert (pyOrSize i g.size) n.doc_id g.all_nodes := by
  unfold IndexGraph.insert
  cases h : getChildIndexSet
      (dictInsert n.doc_id (pyOrSize i g.size) g.node_id_to_index) c <;>
    simp [h]

theorem insert_child_map (g : IndexGraph) (n : Node) (i : Option Nat)
    (c : List Node) :
    ((g.insert n i c).1).node_id_to_child_indices =
      match getChildIndexSet
          (dictInsert n.doc_id (pyOrSize i g.size) g.node_id_to_index) c with
      | none => g.node_id_to_child_indices
      | some cis => dictInsert n.doc_id cis g.node_id_to_child_indices := by
  unfold IndexGraph.insert
  cases h : getChildIndexSet
      (dictInsert n.doc_id (pyOrSize i g.size) g.node_id_to_index) c <;>
    simp [h]

theorem insert_under_parent_all_nodes (g : IndexGraph) (n : Node)
    (p : Option Node) (i : Option Nat) :
    (g.insert_under_parent n p i).all_nodes =
      dictInsert (pyOrSize i g.size) n.doc_id g.all_nodes := by
  cases p <;> rfl

theorem insert_under_parent_child_map (g : IndexGraph) (n : Node)
    (p : Option Node) (i : Option Nat) :
    (g.insert_under_parent n p i).node_id_to_child_indices =
      match p with
      | none => g.node_id_to_child_indices
      | some q =>
          dictInsert q.doc_id
            (setInsert (pyOrSize i g.size)
              ((dictGet q.doc_id g.node_id_to_child_indices).getD []))
            g.node_id_to_child_indices := by
  cases p <;> rfl

theorem applyGraphOp_preserves (g : IndexGraph) (op : GraphOp)
    (h1 : indexMapOk g = true) (h2 : childIndicesOk g = true) :
    indexMapOk (applyGraphOp g op) = true ∧
      childIndicesOk (applyGraphOp g op) = true := by
  have h1p := (indexMapOk_iff g).mp h1
  have h2p := (childIndicesOk_iff g).mp h2
  cases op with
  | ins n i c =>
    simp only [applyGraphOp]
    have hm : ∀ q ∈ dictInsert n.doc_id (pyOrSize i g.size) g.node_id_to_index,
        (dictGet q.2 (dictInsert (pyOrSize i g.size) n.doc_id
          g.all_nodes)).isSome = true := by
      intro q hq
      rcases mem_dictInsert _ _ _ q hq with rfl | hqold
      · simp [dictGet_dictInsert]
      · exact dictGet_isSome_dictInsert _ _ _ _ (h1p q hqold)
    constructor
    · rw [indexMapOk_iff]
      intro q hq
      rw [insert_all_nodes]
      rw [insert_node_id_to_index] at hq
      exact hm q hq
    · rw [childIndicesOk_iff]
      intro q hq j hj
      rw [insert_all_nodes]
      rw [insert_child_map] at hq
      cases hg : getChildIndexSet
          (dictInsert n.doc_id (pyOrSize i g.size) g.node_id_to_index) c with
      | none =>
        rw [hg] at hq
        exact dictGet_isSome_dictInsert _ _ _ _ (h2p q hq j hj)
      | some cis =>
        rw [hg] at hq
        rcases mem_dictInsert _ _ _ q hq with rfl | hqold
        · obtain ⟨nid, hnid⟩ := getChildIndexSet_sound _ c cis hg j hj
          exact hm (nid, j) (dictGet_mem _ _ _ hnid)
        · exact dictGet_isSome_dictInsert _ _ _ _ (h2p q hqold j hj)
  | insUnder n p i =>
    simp only [applyGraphOp]
    constructor
    · rw [indexMapOk_iff]
      intro q hq
      rw [insert_under_parent_node_id_to_index] at hq
      rw [insert_under_parent_all_nodes]
      rcases mem_dictInsert _ _ _ q hq with rfl | hqold
      · simp [dictGet_dictInsert]
      · exact dictGet_isSome_dictInsert _ _ _ _ (h1p q hqold)
    · rw [childIndicesOk_iff]
      intro q hq j hj
      rw [insert_under_parent_all_nodes]
      rw [insert_under_parent_child_map] at hq
      cases p with
      | none =>
        exact dictGet_isSome_dictInsert _ _ _ _ (h2p q hq j hj)
      | some parent =>
        simp only at hq
        rcases mem_dictInsert _ _ _ q hq with rfl | hqold
        · simp only at hj
          rcases mem_setInsert _ _ _ hj with rfl | hjcur
          · simp [dictGet_dictInsert]
          · cases hcur : dictGet parent.doc_id g.node_id_to_child_indices with
            | none =>
              rw [hcur] at hjcur
              cases hjcur
            | some l =>
              rw [hcur] at hjcur
              exact dictGet_isSome_dictInsert _ _ _ _
                (h2p (parent.doc_id, l) (dictGet_mem _ _ _ hcur) j hjcur)
        · exact dictGet_isSome_dictInsert _ _ _ _ (h2p q hqold j hj)

theorem execGraphOps_preserves (ops : List GraphOp) :
    ∀ g : IndexGraph, indexMapOk g = true → childIndicesOk g = true →
      indexMapOk (ops.foldl applyGraphOp g) = true ∧
        childIndicesOk (ops.foldl applyGraphOp g) = true := by
  induction ops with
  | nil =>
    intro g h1 h2
    exact ⟨h1, h2⟩
  | cons op ops ih =>
    intro g h1 h2
    obtain ⟨h1a, h2a⟩ := applyGraphOp_preserves g op h1 h2
    simpa [List.foldl_cons] using ih (applyGraphOp g op) h1a h2a

/-- Claim C4 (counterexample): the no-revisit half of the tree invariant
fails: inserting node "X" as a root and then inserting "X" again under
itself (both legitimate insert_under_parent calls) yields a graph in which
the path X, X starts at a root, follows child_indices, and revisits X. -/
theorem C4_counterexample :
    (let g := execGraphOps
        [GraphOp.insUnder ⟨"X", "", none⟩ none none,
         GraphOp.insUnder ⟨"X", "", none⟩ (some ⟨"X", "", none⟩) none]
     rootPath g ["X", "X"] = true ∧
       ¬ (["X", "X"] : List String).Nodup) := by
  decide

/-- Claim C4 (amended): after any sequence of insert and insert_under_parent
calls on an initially empty IndexGraph, every index appearing in any
child-index set of node_id_to_child_indices is a key of all_nodes; the
no-cycle half of the claimed invariant is dropped, since inserting a node
under itself creates a cycle. -/
theorem C4_child_indices_closed (ops : List GraphOp) :
    childIndicesOk (execGraphOps ops) = true :=
  (execGraphOps_preserves ops emptyIndexGraph rfl rfl).2

end LlamaIndex
